import Mathlib

/-!
Verification of the gospatial planar-geometry engine specification.

The repository declares a `Geometry` interface (spatial predicates, metrics,
set operations, derived-geometry operations and accessors), a `Steric`
interface (`Dimensions/IsValid/IsEmpty/IsSimple`) and twelve geometry-kind
string constants.  The interface implementations are absent from the sources,
so the operations below are modelled from the specification (and from the
declared contracts in the interface doc comments); each such definition says
so in its doc comment.  The kind constants and the declared method signatures
are embedded directly from the source.
-/

namespace GoSpatial

/-! ### Geometry kind constants (from the source, `part_000` lines 3-18) -/

namespace kind

def Point : String := "Point"

def LineString : String := "LineString"

def Polygon : String := "Polygon"

def MultiPoint : String := "MultiPoint"

def MultiLineString : String := "MultiLineString"

def MultiPolygon : String := "MultiPolygon"

def CircularString : String := "CircularString"

def CompountCurve : String := "CompoundCurve"

def CurvePolygon : String := "CurvePolygon"

def PolyhedralSurface : String := "PolyhedralSurface"

def TriangulatedIrregularNetwork : String := "TriangulatedIrregularNetwork"

def Triangle : String := "Triangle"

/-- The twelve kind constants, in source declaration order. -/
def allKinds : List String :=
  [Point, LineString, Polygon, MultiPoint, MultiLineString, MultiPolygon,
   CircularString, CompountCurve, CurvePolygon, PolyhedralSurface,
   TriangulatedIrregularNetwork, Triangle]

end kind

/-! ### Declared method signatures of the `Geometry` interface (from the source) -/

/-- The methods declared by the source `Geometry` interface, in order. -/
inductive Method where
  | stEquals | stDisjoint | stIntersects | stTouches | stCrosses
  | stWithin | stContains | stOverlaps
  | stDistance | stArea | stLength | stPerimeter
  | stBuffer | stConvexHull
  | stIntersection | stUnion | stDifference
  | stCentroid | stPointOnSurface
  | stExteriorRing | stInteriorRingN | stNumInteriorRings
  | stGeometryN | stNumGeometries | stSimplify
deriving DecidableEq

/-- Number of declared result values of each interface method, read off the
source signatures: every method returns a `(value, error)` pair except
`STBuffer`, whose declared signature
`STBuffer(radius_to_buffer float64, quad_segs int)` returns nothing. -/
def declaredResultCount : Method → Nat
  | .stBuffer => 0
  | _ => 2

/-- Whether the declared signature of a method carries an `error` result slot
(read off the source: all do except `STBuffer`). -/
def declaredHasErrorSlot : Method → Bool
  | .stBuffer => false
  | _ => true

/-! ### Data model

Modelled from the spec (§3): a closed tagged variant over Point, LineString,
Polygon (shell plus holes), the Multi variants and GeometryCollection, with
planar rational coordinates standing in for the float64 coordinate pairs. -/

/-- A planar coordinate pair. -/
structure Pt where
  x : ℚ
  y : ℚ
deriving DecidableEq

/-- Modelled from the spec: the closed tagged variant of geometry values. -/
inductive Geometry where
  | point : Pt → Geometry
  | lineString : List Pt → Geometry
  | polygon : List Pt → List (List Pt) → Geometry
  | multiPoint : List Pt → Geometry
  | multiLineString : List (List Pt) → Geometry
  | multiPolygon : List (List Pt × List (List Pt)) → Geometry
  | geometryCollection : List Geometry → Geometry

/-- Error taxonomy, from the spec (§7). -/
inductive GeoError where
  | emptyGeometry
  | dimensionMismatch
  | notAPolygon
  | indexOutOfRange
  | unsupportedOperand
  | invalidParameter
deriving DecidableEq

mutual

/-- Total number of coordinates stored in a geometry, at every level. -/
def coordCount : Geometry → Nat
  | .point _ => 1
  | .lineString cs => cs.length
  | .polygon s h => s.length + (h.map List.length).sum
  | .multiPoint ps => ps.length
  | .multiLineString ls => (ls.map List.length).sum
  | .multiPolygon ps =>
      (ps.map (fun q => q.1.length + (q.2.map List.length).sum)).sum
  | .geometryCollection gs => coordCountList gs

/-- Total coordinate count of a list of geometries. -/
def coordCountList : List Geometry → Nat
  | [] => 0
  | g :: gs => coordCount g + coordCountList gs

end

/-- Modelled from the spec: `IsEmpty()` holds iff the coordinate/member count
is zero at every level. -/
def IsEmpty (g : Geometry) : Bool := coordCount g == 0

/-- Is the geometry an atomic (non-Multi, non-collection) variant? -/
def isAtomic : Geometry → Bool
  | .point _ => true
  | .lineString _ => true
  | .polygon _ _ => true
  | _ => false

/-- Fold a list of dimensions to its maximum, `-1` for the empty list. -/
def maxD (l : List Int) : Int := l.foldl max (-1)

mutual

/-- Modelled from the spec: `Dimensions()` is a pure function of the variant;
0 for Point/MultiPoint, 1 for LineString/MultiLineString, 2 for
Polygon/MultiPolygon, and for GeometryCollection the maximum member
dimension, `-1` when the collection is empty. -/
def Dimensions : Geometry → Int
  | .point _ => 0
  | .lineString _ => 1
  | .polygon _ _ => 2
  | .multiPoint _ => 0
  | .multiLineString _ => 1
  | .multiPolygon _ => 2
  | .geometryCollection gs => maxD (dimensionList gs)

/-- The member dimensions of a list of geometries. -/
def dimensionList : List Geometry → List Int
  | [] => []
  | g :: gs => Dimensions g :: dimensionList gs

end

/-! ### Generic fold-max lemmas -/

theorem foldl_max_init_le (l : List Int) (b : Int) : b ≤ l.foldl max b := by
  induction l generalizing b with
  | nil => exact le_refl b
  | cons x xs ih => exact le_trans (le_max_left b x) (ih (max b x))

theorem le_foldl_max_of_mem {l : List Int} {x : Int} (h : x ∈ l) (b : Int) :
    x ≤ l.foldl max b := by
  induction l generalizing b with
  | nil => cases h
  | cons y ys ih =>
    rcases List.mem_cons.mp h with rfl | hmem
    · exact le_trans (le_max_right b x) (foldl_max_init_le ys (max b x))
    · exact ih hmem (max b y)

theorem foldl_max_eq_init_or_mem (l : List Int) (b : Int) :
    l.foldl max b = b ∨ l.foldl max b ∈ l := by
  induction l generalizing b with
  | nil => exact Or.inl rfl
  | cons x xs ih =>
    rcases ih (max b x) with h | h
    · rcases max_choice b x with hb | hx
      · exact Or.inl (by rw [List.foldl_cons, h, hb])
      · exact Or.inr (by rw [List.foldl_cons, h, hx]; exact List.mem_cons_self x xs)
    · exact Or.inr (List.mem_cons_of_mem x h)

theorem neg_one_le_maxD (l : List Int) : -1 ≤ maxD l := foldl_max_init_le l (-1)

theorem le_maxD_of_mem {l : List Int} {x : Int} (h : x ∈ l) : x ≤ maxD l :=
  le_foldl_max_of_mem h (-1)

theorem maxD_eq_neg_one_or_mem (l : List Int) : maxD l = -1 ∨ maxD l ∈ l :=
  foldl_max_eq_init_or_mem l (-1)

/-- Every geometry has dimension at least `-1`. -/
theorem neg_one_le_dimensions (g : Geometry) : -1 ≤ Dimensions g := by
  cases g with
  | geometryCollection gs =>
    rw [Dimensions]
    exact neg_one_le_maxD _
  | point p => rw [Dimensions]; norm_num
  | lineString cs => rw [Dimensions]; norm_num
  | polygon s h => rw [Dimensions]; norm_num
  | multiPoint ps => rw [Dimensions]; norm_num
  | multiLineString ls => rw [Dimensions]; norm_num
  | multiPolygon ps => rw [Dimensions]; norm_num

theorem dimensionList_eq_map (gs : List Geometry) :
    dimensionList gs = gs.map Dimensions := by
  induction gs with
  | nil => rw [dimensionList]; rfl
  | cons g rest ih => rw [dimensionList, ih]; rfl

/-! ### Geometric primitive tests

Exact rational predicates used to classify intersections of the primitives
(points, segments, polygon faces) that constitute a geometry's interior and
boundary, as described by the spec (§4.2). -/

/-- Twice the signed area of triangle `a b c`; zero iff collinear. -/
def orient (a b c : Pt) : ℚ := (b.x - a.x) * (c.y - a.y) - (b.y - a.y) * (c.x - a.x)

/-- Does `p` lie on the closed segment from `a` to `b`? -/
def onSeg (p a b : Pt) : Bool :=
  decide (orient a b p = 0 ∧ min a.x b.x ≤ p.x ∧ p.x ≤ max a.x b.x ∧
    min a.y b.y ≤ p.y ∧ p.y ≤ max a.y b.y)

/-- Do the open segments `a b` and `c d` cross properly? -/
def properCross (a b c d : Pt) : Bool :=
  decide (orient a b c * orient a b d < 0 ∧ orient c d a * orient c d b < 0)

/-- Do the closed segments `a b` and `c d` share at least one point? -/
def segsIntersect (a b c d : Pt) : Bool :=
  properCross a b c d || onSeg c a b || onSeg d a b || onSeg a c d || onSeg b c d

/-- Does `p` lie on segment `a b`, distinct from both endpoints? -/
def strictOnSeg (p a b : Pt) : Bool := onSeg p a b && decide (p ≠ a ∧ p ≠ b)

/-- Are the four points pairwise collinear along both segments? -/
def collinQuad (a b c d : Pt) : Bool :=
  decide (orient a b c = 0 ∧ orient a b d = 0 ∧ orient c d a = 0 ∧ orient c d b = 0)

/-- Do collinear segments `a b` and `c d` overlap in a sub-segment of
positive length? -/
def collinearOverlap (a b c d : Pt) : Bool :=
  collinQuad a b c d &&
    (strictOnSeg c a b || strictOnSeg d a b || strictOnSeg a c d || strictOnSeg b c d ||
      decide ((a = c ∧ b = d) ∨ (a = d ∧ b = c)))

/-- Consecutive vertex pairs of a coordinate sequence. -/
def edges : List Pt → List (Pt × Pt)
  | [] => []
  | [_] => []
  | a :: b :: rest => (a, b) :: edges (b :: rest)

/-- Does a rightward ray from `p` cross the edge `a b`?  (Standard
ray-casting rule with exact rational arithmetic.) -/
def rayCrosses (p a b : Pt) : Bool :=
  decide (((a.y ≤ p.y ∧ p.y < b.y) ∨ (b.y ≤ p.y ∧ p.y < a.y)) ∧
    p.x < a.x + (p.y - a.y) * (b.x - a.x) / (b.y - a.y))

/-- Crossing-number point-in-ring test. -/
def inRing (p : Pt) (ring : List Pt) : Bool :=
  ((edges ring).countP (fun e => rayCrosses p e.1 e.2)) % 2 == 1

/-- Is `p` on the boundary of the ring? -/
def onRing (p : Pt) (ring : List Pt) : Bool :=
  (edges ring).any (fun e => onSeg p e.1 e.2)

/-- Is `p` strictly interior to the face with shell `s` and holes `hs`? -/
def strictInFace (p : Pt) (s : List Pt) (hs : List (List Pt)) : Bool :=
  inRing p s && !onRing p s && hs.all (fun h => !inRing p h && !onRing p h)

/-- Is `p` in the closure of the face with shell `s` and holes `hs`? -/
def closedInFace (p : Pt) (s : List Pt) (hs : List (List Pt)) : Bool :=
  (inRing p s || onRing p s) && hs.all (fun h => !inRing p h || onRing p h)

/-- Midpoint of a segment. -/
def midPt (a b : Pt) : Pt := ⟨(a.x + b.x) / 2, (a.y + b.y) / 2⟩

/-- All boundary edges of a face (shell and holes). -/
def faceEdges (s : List Pt) (hs : List (List Pt)) : List (Pt × Pt) :=
  edges s ++ (hs.map edges).join

/-- All vertices of a face (shell and holes). -/
def faceVerts (s : List Pt) (hs : List (List Pt)) : List Pt := s ++ hs.join

/-- Geometric primitives constituting interiors and boundaries: points,
segments and polygon faces. -/
inductive Prim where
  | pnt : Pt → Prim
  | seg : Pt → Pt → Prim
  | face : List Pt → List (List Pt) → Prim
deriving DecidableEq

/-- Does the closed segment `a b` meet the closure of the face? -/
def segFaceTouch (a b : Pt) (s : List Pt) (hs : List (List Pt)) : Bool :=
  closedInFace a s hs || closedInFace b s hs || closedInFace (midPt a b) s hs ||
    (faceEdges s hs).any (fun e => segsIntersect a b e.1 e.2)

/-- Do the closures of two faces meet? -/
def faceFaceTouch (s1 : List Pt) (h1 : List (List Pt))
    (s2 : List Pt) (h2 : List (List Pt)) : Bool :=
  (faceVerts s1 h1).any (fun v => closedInFace v s2 h2) ||
  (faceVerts s2 h2).any (fun v => closedInFace v s1 h1) ||
  (faceEdges s1 h1).any (fun e =>
    (faceEdges s2 h2).any (fun f => segsIntersect e.1 e.2 f.1 f.2))

/-- Do two primitives share at least one point? -/
def primTouch : Prim → Prim → Bool
  | .pnt p, .pnt q => decide (p = q)
  | .pnt p, .seg a b => onSeg p a b
  | .seg a b, .pnt p => onSeg p a b
  | .pnt p, .face s h => closedInFace p s h
  | .face s h, .pnt p => closedInFace p s h
  | .seg a b, .seg c d => segsIntersect a b c d
  | .seg a b, .face s h => segFaceTouch a b s h
  | .face s h, .seg a b => segFaceTouch a b s h
  | .face s1 h1, .face s2 h2 => faceFaceTouch s1 h1 s2 h2

/-- Does segment `a b` meet the face in a set of dimension 1? -/
def segFaceDim1 (a b : Pt) (s : List Pt) (hs : List (List Pt)) : Bool :=
  strictInFace a s hs || strictInFace b s hs || strictInFace (midPt a b) s hs ||
    (faceEdges s hs).any (fun e => collinearOverlap a b e.1 e.2)

/-- Do the interiors of two faces overlap (dimension-2 intersection)? -/
def faceFaceOverlap (s1 : List Pt) (h1 : List (List Pt))
    (s2 : List Pt) (h2 : List (List Pt)) : Bool :=
  (faceVerts s1 h1).any (fun v => strictInFace v s2 h2) ||
  (faceVerts s2 h2).any (fun v => strictInFace v s1 h1) ||
  (faceEdges s1 h1).any (fun e =>
    (faceEdges s2 h2).any (fun f => properCross e.1 e.2 f.1 f.2))

/-- Do the boundaries of two faces share a sub-segment of positive length? -/
def facesEdgeOverlap (s1 : List Pt) (h1 : List (List Pt))
    (s2 : List Pt) (h2 : List (List Pt)) : Bool :=
  (faceEdges s1 h1).any (fun e =>
    (faceEdges s2 h2).any (fun f => collinearOverlap e.1 e.2 f.1 f.2))

/-- Dimension of the intersection of two touching primitives. -/
def primInterDimCore : Prim → Prim → Int
  | .pnt _, _ => 0
  | _, .pnt _ => 0
  | .seg a b, .seg c d => if collinearOverlap a b c d then 1 else 0
  | .seg a b, .face s h => if segFaceDim1 a b s h then 1 else 0
  | .face s h, .seg a b => if segFaceDim1 a b s h then 1 else 0
  | .face s1 h1, .face s2 h2 =>
      if faceFaceOverlap s1 h1 s2 h2 then 2
      else if facesEdgeOverlap s1 h1 s2 h2 then 1 else 0

/-- Dimension of the intersection of two primitives, `-1` when disjoint. -/
def interPrimDim (p q : Prim) : Int :=
  if primTouch p q then primInterDimCore p q else -1

/-! ### Symmetry of the primitive intersection classification -/

theorem bool_eq_of_iff {a b : Bool} (h : a = true ↔ b = true) : a = b := by
  cases a <;> cases b <;> simp_all

theorem any_swap {α β : Type} (xs : List α) (ys : List β) (f : α → β → Bool) :
    (xs.any fun x => ys.any fun y => f x y) = (ys.any fun y => xs.any fun x => f x y) := by
  apply bool_eq_of_iff
  simp only [List.any_eq_true]
  constructor
  · rintro ⟨x, hx, y, hy, h⟩; exact ⟨y, hy, x, hx, h⟩
  · rintro ⟨y, hy, x, hx, h⟩; exact ⟨x, hx, y, hy, h⟩

theorem properCross_comm (a b c d : Pt) : properCross a b c d = properCross c d a b :=
  decide_eq_decide.mpr and_comm

theorem segsIntersect_comm (a b c d : Pt) :
    segsIntersect a b c d = segsIntersect c d a b := by
  apply bool_eq_of_iff
  simp only [segsIntersect, Bool.or_eq_true, properCross_comm a b c d]
  tauto

theorem collinQuad_comm (a b c d : Pt) : collinQuad a b c d = collinQuad c d a b :=
  decide_eq_decide.mpr (by tauto)

theorem collinearOverlap_comm (a b c d : Pt) :
    collinearOverlap a b c d = collinearOverlap c d a b := by
  apply bool_eq_of_iff
  simp only [collinearOverlap, Bool.and_eq_true, Bool.or_eq_true,
    collinQuad_comm a b c d, decide_eq_true_eq]
  constructor
  · rintro ⟨h1, h2⟩
    refine ⟨h1, ?_⟩
    rcases h2 with h | h | h | h | (⟨rfl, rfl⟩ | ⟨rfl, rfl⟩) <;> tauto
  · rintro ⟨h1, h2⟩
    refine ⟨h1, ?_⟩
    rcases h2 with h | h | h | h | (⟨rfl, rfl⟩ | ⟨rfl, rfl⟩) <;> tauto

theorem faceFaceTouch_comm (s1 : List Pt) (h1 : List (List Pt))
    (s2 : List Pt) (h2 : List (List Pt)) :
    faceFaceTouch s1 h1 s2 h2 = faceFaceTouch s2 h2 s1 h1 := by
  unfold faceFaceTouch
  rw [any_swap (faceEdges s1 h1) (faceEdges s2 h2)]
  have hsym : ∀ e f : Pt × Pt, segsIntersect e.1 e.2 f.1 f.2 = segsIntersect f.1 f.2 e.1 e.2 :=
    fun e f => segsIntersect_comm e.1 e.2 f.1 f.2
  simp only [hsym]
  apply bool_eq_of_iff
  simp only [Bool.or_eq_true]
  tauto

theorem faceFaceOverlap_comm (s1 : List Pt) (h1 : List (List Pt))
    (s2 : List Pt) (h2 : List (List Pt)) :
    faceFaceOverlap s1 h1 s2 h2 = faceFaceOverlap s2 h2 s1 h1 := by
  unfold faceFaceOverlap
  rw [any_swap (faceEdges s1 h1) (faceEdges s2 h2)]
  have hsym : ∀ e f : Pt × Pt, properCross e.1 e.2 f.1 f.2 = properCross f.1 f.2 e.1 e.2 :=
    fun e f => properCross_comm e.1 e.2 f.1 f.2
  simp only [hsym]
  apply bool_eq_of_iff
  simp only [Bool.or_eq_true]
  tauto

theorem facesEdgeOverlap_comm (s1 : List Pt) (h1 : List (List Pt))
    (s2 : List Pt) (h2 : List (List Pt)) :
    facesEdgeOverlap s1 h1 s2 h2 = facesEdgeOverlap s2 h2 s1 h1 := by
  unfold facesEdgeOverlap
  rw [any_swap (faceEdges s1 h1) (faceEdges s2 h2)]
  have hsym : ∀ e f : Pt × Pt, collinearOverlap e.1 e.2 f.1 f.2 = collinearOverlap f.1 f.2 e.1 e.2 :=
    fun e f => collinearOverlap_comm e.1 e.2 f.1 f.2
  simp only [hsym]

theorem primTouch_comm (p q : Prim) : primTouch p q = primTouch q p := by
  cases p with
  | pnt x =>
    cases q with
    | pnt y => exact decide_eq_decide.mpr eq_comm
    | seg a b => rfl
    | face s h => rfl
  | seg a b =>
    cases q with
    | pnt y => rfl
    | seg c d => exact segsIntersect_comm a b c d
    | face s h => rfl
  | face s h =>
    cases q with
    | pnt y => rfl
    | seg a b => rfl
    | face s2 h2 => exact faceFaceTouch_comm s h s2 h2

theorem primInterDimCore_comm (p q : Prim) : primInterDimCore p q = primInterDimCore q p := by
  cases p with
  | pnt x => cases q <;> rfl
  | seg a b =>
    cases q with
    | pnt y => rfl
    | seg c d => simp only [primInterDimCore]; rw [collinearOverlap_comm]
    | face s h => rfl
  | face s h =>
    cases q with
    | pnt y => rfl
    | seg a b => rfl
    | face s2 h2 =>
      simp only [primInterDimCore]
      rw [faceFaceOverlap_comm, facesEdgeOverlap_comm]

theorem interPrimDim_comm (p q : Prim) : interPrimDim p q = interPrimDim q p := by
  unfold interPrimDim
  rw [primTouch_comm, primInterDimCore_comm]

theorem neg_one_le_interPrimDim (p q : Prim) : -1 ≤ interPrimDim p q := by
  unfold interPrimDim
  split
  · cases p <;> cases q <;> simp only [primInterDimCore] <;>
      (try split) <;> (try split) <;> norm_num
  · exact le_refl _

/-! ### Interior and boundary decompositions -/

/-- Segment primitives of a coordinate sequence; a one-point sequence
contributes its point, a zero-length edge contributes a point primitive. -/
def segPrims (cs : List Pt) : List Prim :=
  match cs with
  | [] => []
  | [c] => [.pnt c]
  | _ => (edges cs).map (fun e => if e.1 = e.2 then Prim.pnt e.1 else Prim.seg e.1 e.2)

/-- Boundary primitives of a LineString: its two endpoints, none when the
line is closed (spec §4.2). -/
def lineBoundaryPrims (cs : List Pt) : List Prim :=
  match cs with
  | [] => []
  | [_] => []
  | a :: b :: rest =>
      let l := (b :: rest).getLastD b
      if a = l then [] else [.pnt a, .pnt l]

mutual

/-- Modelled from the spec (§4.2): the primitives constituting a geometry's
interior — the point itself, the segments of a line, the face of a polygon,
and the union of members for Multi and collection variants. -/
def iParts : Geometry → List Prim
  | .point p => [.pnt p]
  | .lineString cs => segPrims cs
  | .polygon s h => [.face s h]
  | .multiPoint ps => ps.map .pnt
  | .multiLineString ls => (ls.map segPrims).join
  | .multiPolygon ps => ps.map (fun q => .face q.1 q.2)
  | .geometryCollection gs => iPartsList gs

/-- Interior primitives of a list of geometries. -/
def iPartsList : List Geometry → List Prim
  | [] => []
  | g :: gs => iParts g ++ iPartsList gs

end

mutual

/-- Modelled from the spec (§4.2): the primitives constituting a geometry's
boundary — empty for points, the endpoints of a non-closed line, the rings of
a polygon, and the union of members for Multi and collection variants. -/
def bParts : Geometry → List Prim
  | .point _ => []
  | .lineString cs => lineBoundaryPrims cs
  | .polygon s h => segPrims s ++ (h.map segPrims).join
  | .multiPoint _ => []
  | .multiLineString ls => (ls.map lineBoundaryPrims).join
  | .multiPolygon ps => (ps.map (fun q => segPrims q.1 ++ (q.2.map segPrims).join)).join
  | .geometryCollection gs => bPartsList gs

/-- Boundary primitives of a list of geometries. -/
def bPartsList : List Geometry → List Prim
  | [] => []
  | g :: gs => bParts g ++ bPartsList gs

end

/-- All primitives of a geometry's closure (interior and boundary). -/
def allParts (g : Geometry) : List Prim := iParts g ++ bParts g

/-! ### The DE-9IM matrix and the derived predicates -/

/-- Topological dimension of a primitive. -/
def primDim : Prim → Int
  | .pnt _ => 0
  | .seg a b => if a = b then 0 else 1
  | .face _ _ => 2

/-- Is primitive `p` contained in the closure of primitive `q`? -/
def primSubset : Prim → Prim → Bool
  | .pnt p, q => primTouch (.pnt p) q
  | .seg a b, .pnt c => decide (a = c ∧ b = c)
  | .seg a b, .seg c d => onSeg a c d && onSeg b c d
  | .seg a b, .face s h =>
      closedInFace a s h && closedInFace b s h && closedInFace (midPt a b) s h
  | .face _ _, .pnt _ => false
  | .face _ _, .seg _ _ => false
  | .face s1 h1, .face s2 h2 => (faceVerts s1 h1).all (fun v => closedInFace v s2 h2)

/-- Dimensions of intersections of all primitive pairs. -/
def pairDims (ps qs : List Prim) : List Int :=
  (ps.map (fun p => qs.map (fun q => interPrimDim p q))).join

/-- Dimension of the intersection of two primitive collections: the maximum
pairwise intersection dimension, `-1` when every pair is disjoint. -/
def interDim (ps qs : List Prim) : Int := maxD (pairDims ps qs)

/-- Dimension of the part of `ps` not covered by the closure primitives `qs`
(used for the exterior cells), `-1` when everything is covered. -/
def uncoveredDim (ps qs : List Prim) : Int :=
  maxD ((ps.filter (fun p => !qs.any (fun q => primSubset p q))).map primDim)

/-- The DE-9IM matrix: dimensions of the pairwise intersections of interior,
boundary and exterior of two geometries (spec §4.2). -/
structure DE9IM where
  ii : Int
  ib : Int
  ie : Int
  bi : Int
  bb : Int
  be : Int
  ei : Int
  eb : Int
  ee : Int
deriving DecidableEq

/-- Modelled from the spec (§4.2): the DE-9IM matrix is computed by
intersecting the primitives constituting each geometry's interior and
boundary; an exterior cell holds the dimension of the other geometry's
primitives not covered by this geometry's closure, and the
exterior/exterior cell of two bounded geometries is always 2. -/
def relate (a b : Geometry) : DE9IM :=
  { ii := interDim (iParts a) (iParts b)
    ib := interDim (iParts a) (bParts b)
    ie := uncoveredDim (iParts a) (allParts b)
    bi := interDim (bParts a) (iParts b)
    bb := interDim (bParts a) (bParts b)
    be := uncoveredDim (bParts a) (allParts b)
    ei := uncoveredDim (iParts b) (allParts a)
    eb := uncoveredDim (bParts b) (allParts a)
    ee := 2 }

/-- Transpose of a DE-9IM matrix (swap the roles of the two geometries). -/
def transposeM (M : DE9IM) : DE9IM :=
  { ii := M.ii, ib := M.bi, ie := M.ei, bi := M.ib, bb := M.bb, be := M.eb,
    ei := M.ie, eb := M.be, ee := M.ee }

/-- OGC intersects pattern: some non-exterior cell is non-empty. -/
def intersectsPattern (M : DE9IM) : Bool :=
  decide (0 ≤ M.ii ∨ 0 ≤ M.ib ∨ 0 ≤ M.bi ∨ 0 ≤ M.bb)

/-- OGC disjoint pattern `FF*FF****`. -/
def disjointPattern (M : DE9IM) : Bool :=
  decide (M.ii = -1 ∧ M.ib = -1 ∧ M.bi = -1 ∧ M.bb = -1)

/-- OGC contains pattern `T*****FF*`. -/
def containsPattern (M : DE9IM) : Bool :=
  decide (0 ≤ M.ii ∧ M.ei = -1 ∧ M.eb = -1)

/-- OGC within pattern `T*F**F***`. -/
def withinPattern (M : DE9IM) : Bool :=
  decide (0 ≤ M.ii ∧ M.ie = -1 ∧ M.be = -1)

/-- Modelled from the spec: `STIntersects` is the pattern match of the
intersects predicate against the DE-9IM matrix; defined for all operand
dimensions, hence never an error. -/
def STIntersects (a b : Geometry) : Except GeoError Bool :=
  .ok (intersectsPattern (relate a b))

/-- Modelled from the spec: `STDisjoint` is the pattern match of the disjoint
predicate against the DE-9IM matrix. -/
def STDisjoint (a b : Geometry) : Except GeoError Bool :=
  .ok (disjointPattern (relate a b))

/-- Modelled from the spec: `STContains` is the pattern match of the contains
predicate against the DE-9IM matrix. -/
def STContains (a b : Geometry) : Except GeoError Bool :=
  .ok (containsPattern (relate a b))

/-- Modelled from the spec: `STWithin` is the pattern match of the within
predicate against the DE-9IM matrix. -/
def STWithin (a b : Geometry) : Except GeoError Bool :=
  .ok (withinPattern (relate a b))

/-- Modelled from the spec: `STCrosses` pattern-matches the DE-9IM matrix for
the operand-dimension combinations where the OGC pattern is defined
(point/line, point/area, line/area, line/line) and fails with
`DimensionMismatch` everywhere else — in particular for two polygons. -/
def STCrosses (a b : Geometry) : Except GeoError Bool :=
  if Dimensions a = 1 ∧ Dimensions b = 1 then
    .ok (decide ((relate a b).ii = 0))
  else if (Dimensions a = 0 ∧ Dimensions b = 1) ∨ (Dimensions a = 0 ∧ Dimensions b = 2) ∨
      (Dimensions a = 1 ∧ Dimensions b = 2) then
    .ok (decide (0 ≤ (relate a b).ii ∧ 0 ≤ (relate a b).ie))
  else .error .dimensionMismatch

/-! ### Matrix-level lemmas -/

theorem mem_pairDims {ps qs : List Prim} {v : Int} :
    v ∈ pairDims ps qs ↔ ∃ p ∈ ps, ∃ q ∈ qs, interPrimDim p q = v := by
  unfold pairDims
  simp only [List.mem_join, List.mem_map]
  constructor
  · rintro ⟨l, ⟨p, hp, rfl⟩, hv⟩
    rcases List.mem_map.mp hv with ⟨q, hq, hEq⟩
    exact ⟨p, hp, q, hq, hEq⟩
  · rintro ⟨p, hp, q, hq, hEq⟩
    exact ⟨qs.map (fun q => interPrimDim p q), ⟨p, hp, rfl⟩, List.mem_map.mpr ⟨q, hq, hEq⟩⟩

theorem interDim_le_swap (ps qs : List Prim) : interDim ps qs ≤ interDim qs ps := by
  rcases maxD_eq_neg_one_or_mem (pairDims ps qs) with h | h
  · unfold interDim
    rw [h]
    exact neg_one_le_maxD _
  · rcases mem_pairDims.mp h with ⟨p, hp, q, hq, hv⟩
    unfold interDim
    calc maxD (pairDims ps qs) = interPrimDim p q := hv.symm
      _ = interPrimDim q p := interPrimDim_comm p q
      _ ≤ maxD (pairDims qs ps) := le_maxD_of_mem (mem_pairDims.mpr ⟨q, hq, p, hp, rfl⟩)

theorem interDim_comm (ps qs : List Prim) : interDim ps qs = interDim qs ps :=
  le_antisymm (interDim_le_swap ps qs) (interDim_le_swap qs ps)

theorem neg_one_le_interDim (ps qs : List Prim) : -1 ≤ interDim ps qs :=
  neg_one_le_maxD _

/-- The DE-9IM of swapped operands is the transposed matrix. -/
theorem relate_transpose (a b : Geometry) : relate b a = transposeM (relate a b) := by
  unfold relate transposeM
  simp only [DE9IM.mk.injEq, and_true, true_and]
  refine ⟨interDim_comm _ _, interDim_comm _ _, interDim_comm _ _, interDim_comm _ _⟩

theorem disjoint_eq_not_intersects_pattern (M : DE9IM) (h1 : -1 ≤ M.ii)
    (h2 : -1 ≤ M.ib) (h3 : -1 ≤ M.bi) (h4 : -1 ≤ M.bb) :
    disjointPattern M = !intersectsPattern M := by
  unfold disjointPattern intersectsPattern
  rw [← decide_not]
  exact decide_eq_decide.mpr (by omega)

/-! ### Claim theorems: predicate consistency -/

/-- C1: `STContains(A,B)` returns the same result as `STWithin(B,A)`: both are
pattern matches over the one DE-9IM matrix, and swapping the operands
transposes the matrix.  Proven for all geometries, hence in particular for
all valid ones. -/
theorem contains_within_duality (a b : Geometry) : STContains a b = STWithin b a := by
  unfold STContains STWithin
  rw [relate_transpose b a]
  rfl

/-- C2: whenever both predicates succeed, `STDisjoint(A,B)` is the negation
of `STIntersects(A,B)`: the disjoint pattern requires the four non-exterior
cells empty and the intersects pattern requires one of them non-empty. -/
theorem disjoint_negation_of_intersects (a b : Geometry) (d i : Bool)
    (hd : STDisjoint a b = .ok d) (hi : STIntersects a b = .ok i) : d = !i := by
  unfold STDisjoint at hd
  unfold STIntersects at hi
  injection hd with hd
  injection hi with hi
  subst hd
  subst hi
  exact disjoint_eq_not_intersects_pattern (relate a b) (neg_one_le_interDim _ _)
    (neg_one_le_interDim _ _) (neg_one_le_interDim _ _) (neg_one_le_interDim _ _)

/-- Witness for C2 at the two disjoint points `(0,0)` and `(10,0)`. -/
theorem disjoint_negation_of_intersects_witness :
    STDisjoint (.point ⟨0, 0⟩) (.point ⟨10, 0⟩) = .ok true ∧
    STIntersects (.point ⟨0, 0⟩) (.point ⟨10, 0⟩) = .ok false ∧
    (true : Bool) = !false :=
  ⟨rfl, rfl,
    disjoint_negation_of_intersects (.point ⟨0, 0⟩) (.point ⟨10, 0⟩) true false rfl rfl⟩

/-- C6: `STCrosses` on two operands of topological dimension 2 fails with
`DimensionMismatch` instead of returning a boolean. -/
theorem crosses_polygons_dimension_mismatch (a b : Geometry)
    (ha : Dimensions a = 2) (_hb : Dimensions b = 2) :
    STCrosses a b = .error .dimensionMismatch := by
  unfold STCrosses
  have h1 : ¬(Dimensions a = 1 ∧ Dimensions b = 1) := by omega
  have h2 : ¬((Dimensions a = 0 ∧ Dimensions b = 1) ∨ (Dimensions a = 0 ∧ Dimensions b = 2) ∨
      (Dimensions a = 1 ∧ Dimensions b = 2)) := by omega
  rw [if_neg h1, if_neg h2]

/-- Witness for C6 at two concrete square polygons. -/
theorem crosses_polygons_dimension_mismatch_witness :
    Dimensions (Geometry.polygon [⟨0, 0⟩, ⟨4, 0⟩, ⟨4, 4⟩, ⟨0, 4⟩, ⟨0, 0⟩] []) = 2 ∧
    STCrosses (Geometry.polygon [⟨0, 0⟩, ⟨4, 0⟩, ⟨4, 4⟩, ⟨0, 4⟩, ⟨0, 0⟩] [])
      (Geometry.polygon [⟨1, 1⟩, ⟨3, 1⟩, ⟨3, 3⟩, ⟨1, 3⟩, ⟨1, 1⟩] []) =
      .error .dimensionMismatch :=
  ⟨rfl, crosses_polygons_dimension_mismatch _ _ rfl rfl⟩

/-! ### The metric engine: minimum distance (spec §4.3) -/

/-- Squared Euclidean distance of two points. -/
def sqDist (u v : Pt) : ℚ := (u.x - v.x) ^ 2 + (u.y - v.y) ^ 2

/-- Squared distance from a point to a closed segment: zero when the point is
on the segment, otherwise the squared distance to the clamped projection. -/
def pntSegDistSq (p a b : Pt) : ℚ :=
  if onSeg p a b then 0
  else if a = b then sqDist p a
  else
    let d := sqDist a b
    let t := ((p.x - a.x) * (b.x - a.x) + (p.y - a.y) * (b.y - a.y)) / d
    let s := max 0 (min 1 t)
    sqDist p ⟨a.x + s * (b.x - a.x), a.y + s * (b.y - a.y)⟩

/-- Squared distance between two closed segments: the minimum of the four
endpoint-to-segment distances (zero-intersection is handled by the caller). -/
def segSegDistSq (a b c d : Pt) : ℚ :=
  min (min (pntSegDistSq a c d) (pntSegDistSq b c d))
      (min (pntSegDistSq c a b) (pntSegDistSq d a b))

/-- Minimum of a list of rationals, 0 for the empty list. -/
def listMinQ : List ℚ → ℚ
  | [] => 0
  | x :: xs => xs.foldl min x

/-- Squared distance between the point sets of two non-touching primitives. -/
def primDistSqCore : Prim → Prim → ℚ
  | .pnt p, .pnt q => sqDist p q
  | .pnt p, .seg a b => pntSegDistSq p a b
  | .seg a b, .pnt p => pntSegDistSq p a b
  | .pnt p, .face s h => listMinQ ((faceEdges s h).map (fun e => pntSegDistSq p e.1 e.2))
  | .face s h, .pnt p => listMinQ ((faceEdges s h).map (fun e => pntSegDistSq p e.1 e.2))
  | .seg a b, .seg c d => segSegDistSq a b c d
  | .seg a b, .face s h => listMinQ ((faceEdges s h).map (fun e => segSegDistSq a b e.1 e.2))
  | .face s h, .seg a b => listMinQ ((faceEdges s h).map (fun e => segSegDistSq a b e.1 e.2))
  | .face s1 h1, .face s2 h2 =>
      listMinQ ((faceEdges s1 h1).map (fun e =>
        listMinQ ((faceEdges s2 h2).map (fun f => segSegDistSq e.1 e.2 f.1 f.2))))

/-- Squared distance between two primitives: zero when they touch. -/
def primDistSq (p q : Prim) : ℚ := if primTouch p q then 0 else primDistSqCore p q

/-- The pairwise squared distances of all primitive pairs of two geometries. -/
def pairDistsSq (a b : Geometry) : List ℚ :=
  ((allParts a).map (fun p => (allParts b).map (fun q => primDistSq p q))).join

/-- Modelled from the spec (§4.3): the global minimum of the pairwise minimal
squared distances between the constituent primitives of the two geometries. -/
def minDistSq (a b : Geometry) : ℚ := listMinQ (pairDistsSq a b)

/-- Modelled from the spec (§4.3): `STDistance` fails with `EmptyGeometry`
when either operand is empty; otherwise it returns the minimum Euclidean
distance between any point of A and any point of B — the square root of the
global minimum of the pairwise squared primitive distances. -/
noncomputable def STDistance (a b : Geometry) : Except GeoError ℝ :=
  if IsEmpty a || IsEmpty b then .error .emptyGeometry
  else .ok (Real.sqrt ((minDistSq a b : ℚ) : ℝ))

/-! ### Distance lemmas -/

theorem foldl_min_le_init (l : List ℚ) (b : ℚ) : l.foldl min b ≤ b := by
  induction l generalizing b with
  | nil => exact le_refl b
  | cons x xs ih => exact le_trans (ih (min b x)) (min_le_left b x)

theorem foldl_min_le_of_mem {l : List ℚ} {x : ℚ} (h : x ∈ l) (b : ℚ) :
    l.foldl min b ≤ x := by
  induction l generalizing b with
  | nil => cases h
  | cons y ys ih =>
    rcases List.mem_cons.mp h with rfl | hmem
    · exact le_trans (foldl_min_le_init ys (min b x)) (min_le_right b x)
    · exact ih hmem (min b y)

theorem le_foldl_min {l : List ℚ} {b c : ℚ} (hb : c ≤ b) (h : ∀ x ∈ l, c ≤ x) :
    c ≤ l.foldl min b := by
  induction l generalizing b with
  | nil => exact hb
  | cons y ys ih =>
    exact ih (le_min hb (h y (List.mem_cons_self y ys)))
      (fun x hx => h x (List.mem_cons_of_mem y hx))

theorem listMinQ_le_of_mem {l : List ℚ} {x : ℚ} (h : x ∈ l) : listMinQ l ≤ x := by
  cases l with
  | nil => cases h
  | cons y ys =>
    rcases List.mem_cons.mp h with rfl | hmem
    · exact foldl_min_le_init ys x
    · exact foldl_min_le_of_mem hmem y

theorem listMinQ_nonneg {l : List ℚ} (h : ∀ x ∈ l, 0 ≤ x) : 0 ≤ listMinQ l := by
  cases l with
  | nil => exact le_refl 0
  | cons y ys =>
    exact le_foldl_min (h y (List.mem_cons_self y ys))
      (fun x hx => h x (List.mem_cons_of_mem y hx))

theorem sqDist_nonneg (u v : Pt) : 0 ≤ sqDist u v := by
  unfold sqDist
  positivity

theorem pntSegDistSq_nonneg (p a b : Pt) : 0 ≤ pntSegDistSq p a b := by
  unfold pntSegDistSq
  split
  · exact le_refl 0
  · split
    · exact sqDist_nonneg p a
    · exact sqDist_nonneg p _

theorem segSegDistSq_nonneg (a b c d : Pt) : 0 ≤ segSegDistSq a b c d :=
  le_min (le_min (pntSegDistSq_nonneg a c d) (pntSegDistSq_nonneg b c d))
    (le_min (pntSegDistSq_nonneg c a b) (pntSegDistSq_nonneg d a b))

theorem primDistSqCore_nonneg (p q : Prim) : 0 ≤ primDistSqCore p q := by
  cases p with
  | pnt x =>
    cases q with
    | pnt y => exact sqDist_nonneg x y
    | seg a b => exact pntSegDistSq_nonneg x a b
    | face s h =>
      apply listMinQ_nonneg
      intro v hv
      rcases List.mem_map.mp hv with ⟨e, _, rfl⟩
      exact pntSegDistSq_nonneg x e.1 e.2
  | seg a b =>
    cases q with
    | pnt y => exact pntSegDistSq_nonneg y a b
    | seg c d => exact segSegDistSq_nonneg a b c d
    | face s h =>
      apply listMinQ_nonneg
      intro v hv
      rcases List.mem_map.mp hv with ⟨e, _, rfl⟩
      exact segSegDistSq_nonneg a b e.1 e.2
  | face s h =>
    cases q with
    | pnt y =>
      apply listMinQ_nonneg
      intro v hv
      rcases List.mem_map.mp hv with ⟨e, _, rfl⟩
      exact pntSegDistSq_nonneg y e.1 e.2
    | seg a b =>
      apply listMinQ_nonneg
      intro v hv
      rcases List.mem_map.mp hv with ⟨e, _, rfl⟩
      exact segSegDistSq_nonneg a b e.1 e.2
    | face s2 h2 =>
      apply listMinQ_nonneg
      intro v hv
      rcases List.mem_map.mp hv with ⟨e, _, rfl⟩
      apply listMinQ_nonneg
      intro w hw
      rcases List.mem_map.mp hw with ⟨f, _, rfl⟩
      exact segSegDistSq_nonneg e.1 e.2 f.1 f.2

theorem primDistSq_nonneg (p q : Prim) : 0 ≤ primDistSq p q := by
  unfold primDistSq
  split
  · exact le_refl 0
  · exact primDistSqCore_nonneg p q

/-- A primitive pair with non-empty intersection has squared distance zero. -/
theorem primDistSq_eq_zero_of_dim_nonneg (p q : Prim) (h : 0 ≤ interPrimDim p q) :
    primDistSq p q = 0 := by
  unfold interPrimDim at h
  unfold primDistSq
  by_cases ht : primTouch p q = true
  · rw [if_pos ht]
  · rw [if_neg ht] at h
    omega

theorem mem_join_map_map {α β γ : Type} {f : α → β → γ} {ps : List α} {qs : List β}
    {v : γ} :
    v ∈ (ps.map (fun p => qs.map (fun q => f p q))).join ↔
      ∃ p ∈ ps, ∃ q ∈ qs, f p q = v := by
  simp only [List.mem_join, List.mem_map]
  constructor
  · rintro ⟨l, ⟨p, hp, rfl⟩, hv⟩
    rcases List.mem_map.mp hv with ⟨q, hq, hEq⟩
    exact ⟨p, hp, q, hq, hEq⟩
  · rintro ⟨p, hp, q, hq, hEq⟩
    exact ⟨qs.map (fun q => f p q), ⟨p, hp, rfl⟩, List.mem_map.mpr ⟨q, hq, hEq⟩⟩

theorem exists_pair_of_interDim_nonneg {ps qs : List Prim} (h : 0 ≤ interDim ps qs) :
    ∃ p ∈ ps, ∃ q ∈ qs, 0 ≤ interPrimDim p q := by
  rcases maxD_eq_neg_one_or_mem (pairDims ps qs) with hm | hm
  · unfold interDim at h
    omega
  · rcases mem_pairDims.mp hm with ⟨p, hp, q, hq, hv⟩
    refine ⟨p, hp, q, hq, ?_⟩
    rw [hv]
    exact h

theorem minDistSq_nonneg (a b : Geometry) : 0 ≤ minDistSq a b := by
  apply listMinQ_nonneg
  intro v hv
  rcases mem_join_map_map.mp hv with ⟨p, _, q, _, rfl⟩
  exact primDistSq_nonneg p q

/-- Geometries whose DE-9IM matrix matches the intersects pattern are at
squared distance zero. -/
theorem minDistSq_eq_zero_of_intersects (a b : Geometry)
    (h : intersectsPattern (relate a b) = true) : minDistSq a b = 0 := by
  have h' := of_decide_eq_true h
  have hex : ∃ p ∈ allParts a, ∃ q ∈ allParts b, 0 ≤ interPrimDim p q := by
    rcases h' with h' | h' | h' | h'
    · rcases exists_pair_of_interDim_nonneg h' with ⟨p, hp, q, hq, hd⟩
      exact ⟨p, List.mem_append_left _ hp, q, List.mem_append_left _ hq, hd⟩
    · rcases exists_pair_of_interDim_nonneg h' with ⟨p, hp, q, hq, hd⟩
      exact ⟨p, List.mem_append_left _ hp, q, List.mem_append_right _ hq, hd⟩
    · rcases exists_pair_of_interDim_nonneg h' with ⟨p, hp, q, hq, hd⟩
      exact ⟨p, List.mem_append_right _ hp, q, List.mem_append_left _ hq, hd⟩
    · rcases exists_pair_of_interDim_nonneg h' with ⟨p, hp, q, hq, hd⟩
      exact ⟨p, List.mem_append_right _ hp, q, List.mem_append_right _ hq, hd⟩
  rcases hex with ⟨p, hp, q, hq, hd⟩
  have hz : primDistSq p q = 0 := primDistSq_eq_zero_of_dim_nonneg p q hd
  have hmem : primDistSq p q ∈ pairDistsSq a b := mem_join_map_map.mpr ⟨p, hp, q, hq, rfl⟩
  have hle : minDistSq a b ≤ 0 := hz ▸ listMinQ_le_of_mem hmem
  linarith [minDistSq_nonneg a b]

/-- C5: `STDistance` fails with `EmptyGeometry` iff an operand is empty; on
non-empty operands it succeeds with the minimum Euclidean distance (the
square root of the global minimum of pairwise squared primitive distances),
and that distance is 0 whenever the operands intersect. -/
theorem stDistance_spec (a b : Geometry) :
    (STDistance a b = .error .emptyGeometry ↔ (IsEmpty a = true ∨ IsEmpty b = true)) ∧
    (IsEmpty a = false → IsEmpty b = false →
      STDistance a b = .ok (Real.sqrt ((minDistSq a b : ℚ) : ℝ)) ∧
      (STIntersects a b = .ok true → STDistance a b = .ok 0)) := by
  by_cases hor : (IsEmpty a || IsEmpty b) = true
  · have herr : STDistance a b = .error .emptyGeometry := by
      unfold STDistance
      rw [if_pos hor]
    refine ⟨⟨fun _ => ?_, fun _ => herr⟩, fun h1 h2 => ?_⟩
    · exact (Bool.or_eq_true _ _).mp hor
    · rw [h1, h2] at hor
      cases hor
  · have hok : STDistance a b = .ok (Real.sqrt ((minDistSq a b : ℚ) : ℝ)) := by
      unfold STDistance
      rw [if_neg hor]
    have hne : ¬(IsEmpty a = true ∨ IsEmpty b = true) := by
      rw [← Bool.or_eq_true]
      exact hor
    refine ⟨⟨fun h => ?_, fun h => absurd h hne⟩, fun _ _ => ⟨hok, fun hint => ?_⟩⟩
    · rw [hok] at h
      cases h
    · have hz : minDistSq a b = 0 := by
        apply minDistSq_eq_zero_of_intersects
        unfold STIntersects at hint
        injection hint
      rw [hok, hz]
      norm_num

/-- Witness for C5 at the two points `(0,0)` and `(10,0)`. -/
theorem stDistance_spec_witness :
    IsEmpty (Geometry.point ⟨0, 0⟩) = false ∧
    IsEmpty (Geometry.point ⟨10, 0⟩) = false ∧
    (STDistance (.point ⟨0, 0⟩) (.point ⟨10, 0⟩) =
        .ok (Real.sqrt ((minDistSq (.point ⟨0, 0⟩) (.point ⟨10, 0⟩) : ℚ) : ℝ)) ∧
      (STIntersects (.point ⟨0, 0⟩) (.point ⟨10, 0⟩) = .ok true →
        STDistance (.point ⟨0, 0⟩) (.point ⟨10, 0⟩) = .ok 0)) :=
  ⟨rfl, rfl, (stDistance_spec (.point ⟨0, 0⟩) (.point ⟨10, 0⟩)).2 rfl rfl⟩

/-! ### Accessor layer: member and ring accessors (spec §4.5) -/

/-- Is the geometry a Polygon variant? -/
def isPolygon : Geometry → Bool
  | .polygon _ _ => true
  | _ => false

/-- Modelled from the source contract ("Returns the number of elements in a
geometry collection (GEOMETRYCOLLECTION or MULTI*).  For non-empty atomic
geometries returns 1.  For empty geometries returns 0."). -/
def STNumGeometries (g : Geometry) : Except GeoError Int :=
  if IsEmpty g then .ok 0
  else
    match g with
    | .multiPoint ps => .ok ps.length
    | .multiLineString ls => .ok ls.length
    | .multiPolygon ps => .ok ps.length
    | .geometryCollection gs => .ok gs.length
    | _ => .ok 1

/-- Modelled from the source contract ("Return the 1-based Nth element
geometry of an input geometry which is a GEOMETRYCOLLECTION, MULTIPOINT,
MULTILINESTRING, MULTICURVE, MULTIPOLYGON, or POLYHEDRALSURFACE.  Otherwise,
returns error.") together with the spec's error kinds: an out-of-range
member index and any index on an empty geometry report `IndexOutOfRange`; on
atomic (non-collection) inputs the contract mandates an error whose kind
neither source nor spec taxonomy names precisely — modelled here as
`UnsupportedOperand`. -/
def STGeometryN (g : Geometry) (n : Int) : Except GeoError Geometry :=
  if IsEmpty g then .error .indexOutOfRange
  else
    match g with
    | .multiPoint ps =>
        if 1 ≤ n then
          match ps[(n - 1).toNat]? with
          | some p => .ok (.point p)
          | none => .error .indexOutOfRange
        else .error .indexOutOfRange
    | .multiLineString ls =>
        if 1 ≤ n then
          match ls[(n - 1).toNat]? with
          | some l => .ok (.lineString l)
          | none => .error .indexOutOfRange
        else .error .indexOutOfRange
    | .multiPolygon ps =>
        if 1 ≤ n then
          match ps[(n - 1).toNat]? with
          | some q => .ok (.polygon q.1 q.2)
          | none => .error .indexOutOfRange
        else .error .indexOutOfRange
    | .geometryCollection gs =>
        if 1 ≤ n then
          match gs[(n - 1).toNat]? with
          | some m => .ok m
          | none => .error .indexOutOfRange
        else .error .indexOutOfRange
    | _ => .error .unsupportedOperand

/-- Modelled from the source contract and the spec (§4.5): the number of
interior rings of a polygon; `NotAPolygon` on any other variant. -/
def STNumInteriorRings (g : Geometry) : Except GeoError Int :=
  match g with
  | .polygon _ holes => .ok holes.length
  | _ => .error .notAPolygon

/-- Modelled from the source contract and the spec (§4.5): the Nth interior
ring (hole) of a polygon as a LineString, 1-based; `NotAPolygon` on
non-polygon variants, `IndexOutOfRange` outside `[1, numInteriorRings]`. -/
def STInteriorRingN (g : Geometry) (n : Int) : Except GeoError Geometry :=
  match g with
  | .polygon _ holes =>
      if 1 ≤ n then
        match holes[(n - 1).toNat]? with
        | some r => .ok (.lineString r)
        | none => .error .indexOutOfRange
      else .error .indexOutOfRange
  | _ => .error .notAPolygon

/-! ### Claim theorems: accessors -/

/-- C4 counterexample: the claim states that for an atomic non-empty geometry
`STGeometryN(G, 1)` returns `G` itself, but the source's declared contract
returns an error for every non-collection input; at `G = Point (0,0)` the
call does not return `G`. -/
theorem stGeometryN_atomic_counterexample :
    STGeometryN (.point ⟨0, 0⟩) 1 ≠ .ok (.point ⟨0, 0⟩) := by
  intro h
  rw [show STGeometryN (.point ⟨0, 0⟩) 1 = .error .unsupportedOperand from rfl] at h
  cases h

/-- C4 (amended): for an atomic non-empty geometry `STNumGeometries` returns
1 without error and `STGeometryN` fails with an error for every index (the
source contract returns an error for non-collection inputs, rather than the
geometry itself); for every empty geometry `STNumGeometries` returns 0 and
`STGeometryN` fails with `IndexOutOfRange` for every index. -/
theorem numGeometries_geometryN_amended :
    (∀ g : Geometry, isAtomic g = true → IsEmpty g = false →
      STNumGeometries g = .ok 1 ∧
      ∀ n : Int, STGeometryN g n = .error .unsupportedOperand) ∧
    (∀ g : Geometry, IsEmpty g = true →
      STNumGeometries g = .ok 0 ∧
      ∀ n : Int, STGeometryN g n = .error .indexOutOfRange) := by
  constructor
  · intro g hatomic hne
    have hcond : ¬(IsEmpty g = true) := by
      rw [hne]
      exact Bool.false_ne_true
    constructor
    · unfold STNumGeometries
      rw [if_neg hcond]
      cases g with
      | point p => rfl
      | lineString cs => rfl
      | polygon s h => rfl
      | multiPoint ps => simp [isAtomic] at hatomic
      | multiLineString ls => simp [isAtomic] at hatomic
      | multiPolygon ps => simp [isAtomic] at hatomic
      | geometryCollection gs => simp [isAtomic] at hatomic
    · intro n
      unfold STGeometryN
      rw [if_neg hcond]
      cases g with
      | point p => rfl
      | lineString cs => rfl
      | polygon s h => rfl
      | multiPoint ps => simp [isAtomic] at hatomic
      | multiLineString ls => simp [isAtomic] at hatomic
      | multiPolygon ps => simp [isAtomic] at hatomic
      | geometryCollection gs => simp [isAtomic] at hatomic
  · intro g hemp
    constructor
    · unfold STNumGeometries
      rw [if_pos hemp]
    · intro n
      unfold STGeometryN
      rw [if_pos hemp]

/-- Witness for C4 (amended) at `Point (0,0)` and the empty MultiPoint. -/
theorem numGeometries_geometryN_amended_witness :
    isAtomic (Geometry.point ⟨0, 0⟩) = true ∧
    IsEmpty (Geometry.point ⟨0, 0⟩) = false ∧
    IsEmpty (Geometry.multiPoint []) = true ∧
    (STNumGeometries (.point ⟨0, 0⟩) = .ok 1 ∧
      ∀ n : Int, STGeometryN (.point ⟨0, 0⟩) n = .error .unsupportedOperand) ∧
    (STNumGeometries (.multiPoint []) = .ok 0 ∧
      ∀ n : Int, STGeometryN (.multiPoint []) n = .error .indexOutOfRange) :=
  ⟨rfl, rfl, rfl,
    numGeometries_geometryN_amended.1 (.point ⟨0, 0⟩) rfl rfl,
    numGeometries_geometryN_amended.2 (.multiPoint []) rfl⟩

/-- C7: `STInteriorRingN` fails with `NotAPolygon` on every non-polygon
geometry; on a polygon it fails with `IndexOutOfRange` exactly when the
1-based index lies outside `[1, numInteriorRings]`; in particular on a
polygon with zero holes the index 1 fails with `IndexOutOfRange`. -/
theorem stInteriorRingN_errors :
    (∀ g : Geometry, ∀ n : Int, isPolygon g = false →
      STInteriorRingN g n = .error .notAPolygon) ∧
    (∀ s : List Pt, ∀ holes : List (List Pt), ∀ n : Int,
      (STInteriorRingN (.polygon s holes) n = .error .indexOutOfRange ↔
        ¬(1 ≤ n ∧ n ≤ holes.length))) ∧
    (∀ s : List Pt, STInteriorRingN (.polygon s []) 1 = .error .indexOutOfRange) := by
  refine ⟨?_, ?_, ?_⟩
  · intro g n hpoly
    cases g with
    | polygon s h => simp [isPolygon] at hpoly
    | point p => rfl
    | lineString cs => rfl
    | multiPoint ps => rfl
    | multiLineString ls => rfl
    | multiPolygon ps => rfl
    | geometryCollection gs => rfl
  · intro s holes n
    simp only [STInteriorRingN]
    by_cases h1 : 1 ≤ n
    · rw [if_pos h1]
      cases hm : holes[(n - 1).toNat]? with
      | some r =>
        have hlt : (n - 1).toNat < holes.length := by
          by_contra hge
          rw [List.getElem?_eq_none (by omega)] at hm
          cases hm
        constructor
        · intro h
          cases h
        · intro h
          exact absurd ⟨h1, by omega⟩ h
      | none =>
        have hge : holes.length ≤ (n - 1).toNat := by
          by_contra hlt
          rw [List.getElem?_eq_getElem (by omega)] at hm
          cases hm
        constructor
        · intro _ hc
          omega
        · intro _
          rfl
    · rw [if_neg h1]
      constructor
      · intro _ hc
        omega
      · intro _
        rfl
  · intro s
    rfl

/-- Witness for C7 at a point, and at a zero-hole square polygon with
index 1. -/
theorem stInteriorRingN_errors_witness :
    isPolygon (Geometry.point ⟨0, 0⟩) = false ∧
    STInteriorRingN (.point ⟨0, 0⟩) 1 = .error .notAPolygon ∧
    STInteriorRingN (.polygon [⟨0, 0⟩, ⟨4, 0⟩, ⟨4, 4⟩, ⟨0, 4⟩, ⟨0, 0⟩] []) 1 =
      .error .indexOutOfRange :=
  ⟨rfl, stInteriorRingN_errors.1 (.point ⟨0, 0⟩) 1 rfl,
    stInteriorRingN_errors.2.2 [⟨0, 0⟩, ⟨4, 0⟩, ⟨4, 4⟩, ⟨0, 4⟩, ⟨0, 0⟩]⟩

/-! ### Derived geometry: Douglas-Peucker simplification (spec §4.5) -/

/-- Index and value of a maximum element of a list (0 and 0 for the empty
list). -/
def bestIdx : List ℚ → Nat × ℚ
  | [] => (0, 0)
  | [v] => (0, v)
  | v :: w :: rest =>
      let r := bestIdx (w :: rest)
      if v < r.2 then (r.1 + 1, r.2) else (0, v)

/-- The maximum squared deviation of the interior vertices of
`a :: b :: c :: rest` from the chord joining its first and last vertices. -/
def maxDevSq (a b c : Pt) (rest : List Pt) : ℚ :=
  (bestIdx (((b :: c :: rest).dropLast).map
    (fun p => pntSegDistSq p a ((c :: rest).getLastD c)))).2

/-- The split position (clamped to the interior) of the vertex of maximum
deviation in `a :: b :: c :: rest`. -/
def splitIdx (a b c : Pt) (rest : List Pt) : Nat :=
  min ((bestIdx (((b :: c :: rest).dropLast).map
    (fun p => pntSegDistSq p a ((c :: rest).getLastD c)))).1 + 1) (rest.length + 1)

theorem one_le_splitIdx (a b c : Pt) (rest : List Pt) : 1 ≤ splitIdx a b c rest :=
  le_min (Nat.succ_le_succ (Nat.zero_le _)) (Nat.succ_le_succ (Nat.zero_le _))

theorem splitIdx_le (a b c : Pt) (rest : List Pt) :
    splitIdx a b c rest ≤ rest.length + 1 :=
  Nat.min_le_right _ _

/-- Modelled from the spec (§4.5): Douglas-Peucker reduction — find the
interior vertex of maximum perpendicular deviation from the chord joining
the first and last vertices; when that deviation is within tolerance
(strictly below it, per the spec's tolerance-0 identity) keep only the chord
endpoints, otherwise keep the split vertex and recurse on both halves.
Sequences of at most two vertices are kept as they are. -/
def douglasPeucker (tolSq : ℚ) (cs : List Pt) : List Pt :=
  match cs with
  | [] => []
  | [a] => [a]
  | [a, b] => [a, b]
  | a :: b :: c :: rest =>
      if maxDevSq a b c rest < tolSq then [a, (c :: rest).getLastD c]
      else
        douglasPeucker tolSq ((a :: b :: c :: rest).take (splitIdx a b c rest + 1)) ++
          (douglasPeucker tolSq ((a :: b :: c :: rest).drop (splitIdx a b c rest))).tail
termination_by cs.length
decreasing_by
  · have h1 := splitIdx_le a b c rest
    have h2 := List.length_take_le (splitIdx a b c rest + 1) (a :: b :: c :: rest)
    simp only [List.length_cons] at h2 ⊢
    omega
  · have h1 := one_le_splitIdx a b c rest
    simp only [List.length_drop, List.length_cons]
    omega

theorem bestIdx_snd_nonneg {l : List ℚ} (h : ∀ v ∈ l, 0 ≤ v) : 0 ≤ (bestIdx l).2 := by
  induction l with
  | nil => exact le_refl 0
  | cons v vs ih =>
    cases vs with
    | nil => exact h v (List.mem_cons_self _ _)
    | cons w rest =>
      rw [bestIdx]
      split
      · exact ih (fun x hx => h x (List.mem_cons_of_mem v hx))
      · exact h v (List.mem_cons_self _ _)

theorem maxDevSq_nonneg (a b c : Pt) (rest : List Pt) : 0 ≤ maxDevSq a b c rest := by
  unfold maxDevSq
  apply bestIdx_snd_nonneg
  intro v hv
  rcases List.mem_map.mp hv with ⟨p, _, rfl⟩
  exact pntSegDistSq_nonneg _ _ _

theorem dp_zero_aux : ∀ (n : Nat) (cs : List Pt), cs.length ≤ n →
    douglasPeucker 0 cs = cs := by
  intro n
  induction n with
  | zero =>
    intro cs h
    have hnil : cs = [] := List.eq_nil_of_length_eq_zero (by omega)
    subst hnil
    simp [douglasPeucker]
  | succ n ih =>
    intro cs h
    match cs with
    | [] => simp [douglasPeucker]
    | [a] => simp [douglasPeucker]
    | [a, b] => simp [douglasPeucker]
    | a :: b :: c :: rest =>
      rw [douglasPeucker]
      rw [if_neg (not_lt.mpr (maxDevSq_nonneg a b c rest))]
      have hs1 := one_le_splitIdx a b c rest
      have hs2 := splitIdx_le a b c rest
      have hlen : (a :: b :: c :: rest).length = rest.length + 3 := by simp
      simp only [List.length_cons] at h
      rw [ih ((a :: b :: c :: rest).take (splitIdx a b c rest + 1)) (by
        have := List.length_take_le (splitIdx a b c rest + 1) (a :: b :: c :: rest)
        omega)]
      rw [ih ((a :: b :: c :: rest).drop (splitIdx a b c rest)) (by
        rw [List.length_drop, hlen]
        omega)]
      rw [List.tail_drop]
      exact List.take_append_drop _ _

/-- Douglas-Peucker with tolerance zero keeps every vertex. -/
theorem dp_zero (cs : List Pt) : douglasPeucker 0 cs = cs :=
  dp_zero_aux cs.length cs (le_refl _)

/-- The squared tolerance used for deviation comparisons; non-positive
tolerances behave like zero. -/
def tolSqOf (tol : Int) : ℚ := if tol ≤ 0 then 0 else (tol : ℚ) ^ 2

mutual

/-- Modelled from the spec (§4.5): Douglas-Peucker simplification applied to
every linear component; point variants are returned unchanged, polygon rings
keep their endpoints (and hence their closure) by construction. -/
def simplifyGeom (tolSq : ℚ) : Geometry → Geometry
  | .point p => .point p
  | .lineString cs => .lineString (douglasPeucker tolSq cs)
  | .polygon s h => .polygon (douglasPeucker tolSq s) (h.map (douglasPeucker tolSq))
  | .multiPoint ps => .multiPoint ps
  | .multiLineString ls => .multiLineString (ls.map (douglasPeucker tolSq))
  | .multiPolygon ps =>
      .multiPolygon (ps.map (fun q =>
        (douglasPeucker tolSq q.1, q.2.map (douglasPeucker tolSq))))
  | .geometryCollection gs => .geometryCollection (simplifyList tolSq gs)

/-- Simplification of a list of geometries. -/
def simplifyList (tolSq : ℚ) : List Geometry → List Geometry
  | [] => []
  | g :: gs => simplifyGeom tolSq g :: simplifyList tolSq gs

end

/-- Modelled from the source signature `STSimplify(tolerence int) (Geometry,
error)` and the spec (§4.5): Douglas-Peucker reduction; no failure case is
specified, so the operation always succeeds. -/
def STSimplify (g : Geometry) (tol : Int) : Except GeoError Geometry :=
  .ok (simplifyGeom (tolSqOf tol) g)

/-- C9: simplification of a LineString with tolerance 0 succeeds and removes
no vertex — it returns the LineString unchanged, so every vertex of the
input is contained in the result. -/
theorem stSimplify_zero_identity (cs : List Pt) :
    STSimplify (.lineString cs) 0 = .ok (.lineString cs) := by
  unfold STSimplify
  rw [simplifyGeom]
  rw [show tolSqOf 0 = 0 from rfl]
  rw [dp_zero]

/-! ### Claim theorems: constants, signatures, dimensions -/

/-- C10: the twelve geometry-kind tag constants hold pairwise distinct string
values, and each constant holds the OGC kind name it stands for; in
particular the constant named `CompountCurve` holds `"CompoundCurve"`. -/
theorem kind_constants_distinct_and_named :
    kind.allKinds.Nodup ∧
    kind.Point = "Point" ∧ kind.LineString = "LineString" ∧
    kind.Polygon = "Polygon" ∧ kind.MultiPoint = "MultiPoint" ∧
    kind.MultiLineString = "MultiLineString" ∧
    kind.MultiPolygon = "MultiPolygon" ∧
    kind.CircularString = "CircularString" ∧
    kind.CompountCurve = "CompoundCurve" ∧
    kind.CurvePolygon = "CurvePolygon" ∧
    kind.PolyhedralSurface = "PolyhedralSurface" ∧
    kind.TriangulatedIrregularNetwork = "TriangulatedIrregularNetwork" ∧
    kind.Triangle = "Triangle" := by
  refine ⟨?_, rfl, rfl, rfl, rfl, rfl, rfl, rfl, rfl, rfl, rfl, rfl, rfl⟩
  decide

/-- C3: the source declares `STBuffer(radius_to_buffer float64, quad_segs int)`
with no result values at all, while every other interface method carries an
`error` result slot.  Hence the declared contract cannot report
`InvalidParameter` for `quad_segs < 1`, contradicting the spec (which itself
flags the missing result slot as a source inconsistency). -/
theorem stBuffer_missing_error_slot :
    declaredResultCount Method.stBuffer = 0 ∧
    (∀ m : Method, declaredHasErrorSlot m = !(decide (m = Method.stBuffer))) := by
  constructor
  · rfl
  · intro m; cases m <;> rfl

/-- C8: `Dimensions` is a pure function of the variant tag: 0 for
Point/MultiPoint, 1 for LineString/MultiLineString, 2 for
Polygon/MultiPolygon; for a GeometryCollection it is `-1` when the collection
is empty and otherwise the maximum dimension among its members. -/
theorem dimensions_by_variant :
    (∀ p, Dimensions (.point p) = 0) ∧
    (∀ ps, Dimensions (.multiPoint ps) = 0) ∧
    (∀ cs, Dimensions (.lineString cs) = 1) ∧
    (∀ ls, Dimensions (.multiLineString ls) = 1) ∧
    (∀ s h, Dimensions (.polygon s h) = 2) ∧
    (∀ ps, Dimensions (.multiPolygon ps) = 2) ∧
    Dimensions (.geometryCollection []) = -1 ∧
    (∀ gs, gs ≠ [] →
      (∀ g ∈ gs, Dimensions g ≤ Dimensions (.geometryCollection gs)) ∧
      ∃ g ∈ gs, Dimensions (.geometryCollection gs) = Dimensions g) := by
  refine ⟨fun _ => by rw [Dimensions], fun _ => by rw [Dimensions],
    fun _ => by rw [Dimensions], fun _ => by rw [Dimensions],
    fun _ _ => by rw [Dimensions], fun _ => by rw [Dimensions],
    by rw [Dimensions, dimensionList]; rfl, ?_⟩
  intro gs hne
  have hrw : Dimensions (.geometryCollection gs) = maxD (gs.map Dimensions) := by
    rw [Dimensions, dimensionList_eq_map]
  constructor
  · intro g hg
    rw [hrw]
    exact le_maxD_of_mem (List.mem_map_of_mem Dimensions hg)
  · rcases maxD_eq_neg_one_or_mem (gs.map Dimensions) with h | h
    · rcases gs with _ | ⟨g, rest⟩
      · exact absurd rfl hne
      · refine ⟨g, List.mem_cons_self g rest, ?_⟩
        have hle : Dimensions g ≤ maxD ((g :: rest).map Dimensions) :=
          le_maxD_of_mem (List.mem_map_of_mem Dimensions (List.mem_cons_self g rest))
        have hge : -1 ≤ Dimensions g := neg_one_le_dimensions g
        rw [hrw]
        omega
    · rcases List.mem_map.mp h with ⟨g, hg, hEq⟩
      exact ⟨g, hg, by rw [hrw, hEq]⟩

/-- Witness for C8 at a concrete two-member collection. -/
theorem dimensions_by_variant_witness :
    ([Geometry.point ⟨0, 0⟩, Geometry.polygon [⟨0, 0⟩, ⟨1, 0⟩, ⟨1, 1⟩, ⟨0, 0⟩] []] ≠
      ([] : List Geometry)) ∧
    ((∀ g ∈ [Geometry.point ⟨0, 0⟩,
        Geometry.polygon [⟨0, 0⟩, ⟨1, 0⟩, ⟨1, 1⟩, ⟨0, 0⟩] []],
      Dimensions g ≤ Dimensions (.geometryCollection
        [Geometry.point ⟨0, 0⟩,
         Geometry.polygon [⟨0, 0⟩, ⟨1, 0⟩, ⟨1, 1⟩, ⟨0, 0⟩] []])) ∧
      ∃ g ∈ [Geometry.point ⟨0, 0⟩,
        Geometry.polygon [⟨0, 0⟩, ⟨1, 0⟩, ⟨1, 1⟩, ⟨0, 0⟩] []],
        Dimensions (.geometryCollection
          [Geometry.point ⟨0, 0⟩,
           Geometry.polygon [⟨0, 0⟩, ⟨1, 0⟩, ⟨1, 1⟩, ⟨0, 0⟩] []]) = Dimensions g) :=
  ⟨by simp, dimensions_by_variant.2.2.2.2.2.2.2 _ (by simp)⟩

end GoSpatial
